import Mathlib

/-!
# Verification of the ZenTao MCP gateway client (`src/zentao.js`)

Shallow embedding of the API gateway client: JSON values with JavaScript
coercion semantics, the URL/path resolver, the HTTP transport error shaping,
the token manager (explicit state passing), the generic call operation (with
an explicit log of network events), the response-shape normalizer, the domain
operations and the batch orchestrator.  Network I/O is abstracted by an
oracle `Net` mapping a request descriptor to a decoded outcome; the host
platform's `JSON.parse` is abstracted by an oracle `String → Option Json`.
-/

namespace Zentao

/-! ## JavaScript string primitives

The embedding works over `String` but re-implements the handful of string
operations `zentao.js` uses at the character-list level, so that every
definition evaluates inside the kernel.  The modelled character domain is
ASCII case mapping (all keywords the client compares are ASCII). -/

/-- ASCII lower-casing of one character (`String.prototype.toLowerCase`
restricted to the modelled ASCII domain). -/
def lowerChar (c : Char) : Char :=
  if 65 ≤ c.toNat ∧ c.toNat ≤ 90 then Char.ofNat (c.toNat + 32) else c

/-- ASCII upper-casing of one character. -/
def upperChar (c : Char) : Char :=
  if 97 ≤ c.toNat ∧ c.toNat ≤ 122 then Char.ofNat (c.toNat - 32) else c

/-- `s.toLowerCase()`. -/
def jsLower (s : String) : String :=
  ⟨s.data.map lowerChar⟩

/-- `s.toUpperCase()`. -/
def jsUpper (s : String) : String :=
  ⟨s.data.map upperChar⟩

/-- `s.trim()`: strip whitespace from both ends. -/
def jsTrim (s : String) : String :=
  ⟨((s.data.dropWhile Char.isWhitespace).reverse.dropWhile
      Char.isWhitespace).reverse⟩

/-- `s.startsWith(p)`. -/
def strStartsWith (s p : String) : Bool :=
  p.data.isPrefixOf s.data

/-- `s.endsWith(p)`. -/
def strEndsWith (s p : String) : Bool :=
  p.data.isSuffixOf s.data

/-- Does `pat` occur inside the character list? -/
def containsAux (pat : List Char) : List Char → Bool
  | [] => pat.isEmpty
  | c :: rest => pat.isPrefixOf (c :: rest) || containsAux pat rest

/-- `s.includes(pat)` (every pattern the client searches for is
non-empty). -/
def containsSubstr (s pat : String) : Bool :=
  containsAux pat.data s.data

/-- Leftmost non-overlapping replacement over a character list; the fuel is
the input length, enough since every pattern used is non-empty. -/
def replaceAux (pat rep : List Char) : Nat → List Char → List Char
  | _, [] => []
  | 0, s => s
  | fuel + 1, c :: rest =>
    if pat.isPrefixOf (c :: rest) then
      rep ++ replaceAux pat rep fuel ((c :: rest).drop pat.length)
    else
      c :: replaceAux pat rep fuel rest

/-- `s.replaceAll(pat, rep)`. -/
def replaceAll (s pat rep : String) : String :=
  ⟨replaceAux pat.data rep.data s.data.length s.data⟩

/-- `s.replace(/\/+$/, "")`: strip all trailing slashes. -/
def dropTrailingSlashes (s : String) : String :=
  ⟨(s.data.reverse.dropWhile (· = '/')).reverse⟩

/-- Decimal digit accumulation; `none` when a non-digit appears. -/
def parseDigits : List Char → Nat → Option Nat
  | [], acc => some acc
  | c :: rest, acc =>
    if c.isDigit then parseDigits rest (acc * 10 + (c.toNat - 48))
    else none

/-- Integer parsing of a non-empty trimmed string (`Number(s)` restricted to
the integer fragment the client exercises; a non-integer numeral is outside
the modelled domain and maps to `none` = `NaN`). -/
def parseIntChars : List Char → Option Int
  | [] => none
  | '-' :: rest =>
    if rest.isEmpty then none
    else (parseDigits rest 0).map fun n => -(n : Int)
  | '+' :: rest =>
    if rest.isEmpty then none
    else (parseDigits rest 0).map fun n => (n : Int)
  | cs => (parseDigits cs 0).map fun n => (n : Int)

/-- JSON values as decoded by the transport (JS objects; field order kept). -/
inductive Json where
  | null
  | bool (b : Bool)
  | num (n : Int)
  | str (s : String)
  | arr (elems : List Json)
  | obj (fields : List (String × Json))
deriving Repr

/-- Field lookup on a JSON object (`x?.k`): `none` models `undefined`
(missing field or non-object receiver). -/
def Json.get : Json → String → Option Json
  | .obj fields, k => fields.lookup k
  | _, _ => none

/-- Optional-chained lookup (`x?.a?.b`). -/
def optGet (v : Option Json) (k : String) : Option Json :=
  match v with
  | some j => j.get k
  | none => none

/-- JavaScript truthiness of a decoded value. -/
def truthy : Json → Bool
  | .null => false
  | .bool b => b
  | .num n => n != 0
  | .str s => s != ""
  | .arr _ => true
  | .obj _ => true

/-- Truthiness of an optionally-present value (`undefined` is falsy). -/
def optTruthy : Option Json → Bool
  | some j => truthy j
  | none => false

/-- `typeof v === "object"` (true for objects, arrays and `null`). -/
def typeofObject : Json → Bool
  | .null => true
  | .arr _ => true
  | .obj _ => true
  | _ => false

/-- `Array.isArray`. -/
def isArray : Json → Bool
  | .arr _ => true
  | _ => false

/-- JS `a || b` on an optionally-present left operand: the left value when
truthy, otherwise `b`. -/
def jsOr (a : Option Json) (b : Json) : Json :=
  match a with
  | some v => if truthy v then v else b
  | none => b

mutual

/-- JS `String(v)` for decoded values (array elements joined by commas with
`null` rendered empty; plain objects render as `[object Object]`). -/
def jsToString : Json → String
  | .null => "null"
  | .bool b => if b then "true" else "false"
  | .num n => toString n
  | .str s => s
  | .arr elems => jsToStringElems elems
  | .obj _ => "[object Object]"

/-- Array elements under `String(...)`: comma-joined, `null` rendered empty. -/
def jsToStringElems : List Json → String
  | [] => ""
  | [.null] => ""
  | [x] => jsToString x
  | .null :: rest => "," ++ jsToStringElems rest
  | x :: rest => jsToString x ++ "," ++ jsToStringElems rest

end

/-- JS `Number(v)` restricted to the integer fragment the client exercises:
`none` models `NaN` (and non-integer results, outside the modelled domain). -/
def jsNumber : Json → Option Int
  | .null => some 0
  | .bool b => some (if b then 1 else 0)
  | .num n => some n
  | .str s => if jsTrim s = "" then some 0 else parseIntChars (jsTrim s).data
  | .arr [] => some 0
  | .arr [x] => jsNumber x
  | .arr (_ :: _ :: _) => none
  | .obj _ => none

/-- One character of `JSON.stringify` string escaping. -/
def escapeJsonChar (c : Char) : String :=
  if c = '"' then "\\\""
  else if c = '\\' then "\\\\"
  else if c = '\n' then "\\n"
  else if c = '\r' then "\\r"
  else if c = '\t' then "\\t"
  else String.singleton c

mutual

/-- `JSON.stringify` of a decoded value (the client only inspects the result
for a lowercase substring, see `isNeedProductIdError`). -/
def jsonStringify : Json → String
  | .null => "null"
  | .bool b => if b then "true" else "false"
  | .num n => toString n
  | .str s => "\"" ++ String.join (s.toList.map escapeJsonChar) ++ "\""
  | .arr elems => "[" ++ jsonStringifyElems elems ++ "]"
  | .obj fields => "\x7b" ++ jsonStringifyFields fields ++ "\x7d"

/-- Comma-joined `JSON.stringify` of array elements. -/
def jsonStringifyElems : List Json → String
  | [] => ""
  | [x] => jsonStringify x
  | x :: rest => jsonStringify x ++ "," ++ jsonStringifyElems rest

/-- Comma-joined `JSON.stringify` of object fields. -/
def jsonStringifyFields : List (String × Json) → String
  | [] => ""
  | [(k, v)] => "\"" ++ k ++ "\":" ++ jsonStringify v
  | (k, v) :: rest => "\"" ++ k ++ "\":" ++ jsonStringify v ++ "," ++ jsonStringifyFields rest

end

/-! ## Error kinds (§7): one constructor per `throw` site of the client. -/

/-- Failures raised by the gateway client.  `http` carries the numeric
status, the (possibly truncated) response text embedded in the message, and
the decoded body (`err.data`). -/
inductive ZErr where
  | pathRequired
  | pathMustBeRelative
  | missingCredentials
  | tokenFieldMissing
  | http (status : Nat) (body : String) (data : Json)
  | invalidBugId (op : String)
  | emptyComment
  | invalidVerifyResult
deriving Repr

/-- `err.status` (only transport errors carry one). -/
def ZErr.statusOf : ZErr → Option Nat
  | .http s _ _ => some s
  | _ => none

/-- The two `buildUrl` rejections are the spec's `InvalidPath` kind. -/
def ZErr.isInvalidPath : ZErr → Bool
  | .pathRequired => true
  | .pathMustBeRelative => true
  | _ => false

/-- `err.message`, exactly as thrown by the source. -/
def ZErr.messageOf : ZErr → String
  | .pathRequired => "path is required"
  | .pathMustBeRelative => "path must be relative (absolute URL is not allowed)"
  | .missingCredentials => "Need ZENTAO_ACCOUNT and ZENTAO_PASSWORD"
  | .tokenFieldMissing =>
      "Token response does not contain token field; adjust parsing in src/zentao.js#getToken()"
  | .http s body _ => "Request failed " ++ toString s ++ ": " ++ body
  | .invalidBugId op => op ++ " requires a valid bug id"
  | .emptyComment => "commentBug requires non-empty comment"
  | .invalidVerifyResult => "verifyBug.result must be pass or fail"

/-! ## URL/Path resolver (`buildUrl`, `isProbablyAbsoluteUrl`) -/

/-- `/^https?:\/\//i.test(value)`. -/
def isProbablyAbsoluteUrl (s : String) : Bool :=
  strStartsWith (jsLower s) "http://" || strStartsWith (jsLower s) "https://"

/-- Arguments of `buildUrl`.  A query is an ordered list of entries; a `none`
or `some .null` value models a JS `undefined`/`null` entry. -/
structure UrlArgs where
  baseUrl : String
  apiPrefix : String
  path : String
  query : List (String × Option Json)

/-- The resolved URL, split into its path component and its search
parameters.  The embedding assumes `baseUrl` is an origin without a path
component (the bootstrap strips trailing slashes from it), so the URL's path
component is exactly the concatenation `prefix ++ path` built below; the
modelled path domain is characters `new URL` leaves unencoded. -/
structure ResolvedUrl where
  pathPart : String
  params : List (String × String)
deriving Repr

/-- `url.searchParams.set(k, v)`: overwrite the existing value for `k` in
place, else append. -/
def setParam (params : List (String × String)) (k v : String) :
    List (String × String) :=
  if params.any (fun p => p.1 = k) then
    params.map fun p => if p.1 = k then (k, v) else p
  else
    params ++ [(k, v)]

/-- The body of `buildUrl`'s query loop: skip `undefined`/`null` values,
else `searchParams.set` the stringified value. -/
def applyQueryEntry (ps : List (String × String)) (kv : String × Option Json) :
    List (String × String) :=
  match kv.2 with
  | none => ps
  | some .null => ps
  | some v => setParam ps kv.1 (jsToString v)

/-- `buildUrl({baseUrl, apiPrefix, path, query})`. -/
def buildUrl (a : UrlArgs) : Except ZErr ResolvedUrl :=
  if a.path = "" then .error .pathRequired
  else if isProbablyAbsoluteUrl a.path then .error .pathMustBeRelative
  else
    let normalizedPath := if strStartsWith a.path "/" then a.path else "/" ++ a.path
    let prefixPart :=
      if strStartsWith a.apiPrefix "/" then a.apiPrefix else "/" ++ a.apiPrefix
    let params := a.query.foldl applyQueryEntry []
    .ok ⟨prefixPart ++ normalizedPath, params⟩

/-- The claim's `normalize`: ensure one leading slash on a path segment. -/
def normalizeSeg (s : String) : String :=
  if strStartsWith s "/" then s else "/" ++ s

/-- The stringified value of a query entry, `none` for `undefined`/`null`
entries (which `buildUrl` omits). -/
def definedValue : Option Json → Option String
  | none => none
  | some .null => none
  | some v => some (jsToString v)

/-- The claim's last-write-wins reading of a query: the value of the last
defined entry for a key. -/
def lastDefinedValue : List (String × Option Json) → String → Option String
  | [], _ => none
  | kv :: rest, k =>
    match lastDefinedValue rest k with
    | some v => some v
    | none => if kv.1 = k then definedValue kv.2 else none

/-! ## HTTP transport (`fetchJson`, `truncate`) -/

/-- `truncate(s, max)`. -/
def truncate (s : String) (max : Nat) : String :=
  if s.length ≤ max then s else s.take max ++ "...(truncated)"

/-- A raw response received over the wire before decoding. -/
structure RawHttpResponse where
  status : Nat
  contentType : String
  text : String

/-- A decoded successful exchange (`{status, data}`; the headers field of the
source's envelope carries no behaviour the client depends on). -/
structure Resp where
  status : Nat
  data : Json

/-- `fetchJson`: decode as JSON only when the content type says so, fall back
to the raw text on parse failure (`safeJsonParse`), fail with the status and
the truncated text on non-2xx.  `parse` abstracts the host `JSON.parse`
(`none` = parse throws). -/
def fetchJson (parse : String → Option Json) (r : RawHttpResponse) :
    Except ZErr Resp :=
  let data : Json :=
    if containsSubstr r.contentType "application/json" then
      match parse r.text with
      | some j => j
      | none => .str r.text
    else .str r.text
  if 200 ≤ r.status ∧ r.status ≤ 299 then
    .ok ⟨r.status, data⟩
  else
    .error (.http r.status (truncate r.text 2000) data)

/-! ## Token manager (`tokenExpired`, `getToken`) -/

/-- The client's immutable configuration (bootstrap-provided). -/
structure Config where
  baseUrl : String
  apiPrefix : String
  tokenPath : String
  tokenTtlMs : Nat
  defaultProductId : Option Json
  account : String
  password : String

/-- The mutable credential cache (`cachedToken`, `cachedAt`); the initial
state is `⟨.str "", 0⟩`. -/
structure TokenState where
  cachedToken : Json
  cachedAt : Nat
deriving Repr

/-- Where a returned token came from. -/
inductive TokenSource where
  | cache
  | login
deriving Repr, DecidableEq

/-- One network exchange, as observed by the trace-based embedding. -/
inductive NetEvent where
  | login
  | request (path method : String)
deriving Repr, DecidableEq

/-- `tokenExpired()`: never set, never timestamped, or older than the TTL. -/
def tokenExpired (st : TokenState) (now ttl : Nat) : Bool :=
  if !truthy st.cachedToken then true
  else if st.cachedAt = 0 then true
  else decide (now - st.cachedAt > ttl)

/-- The token probe over the decoded login body:
`data.token || data.data.token || data.data.session.token || ""`. -/
def probeToken (data : Json) : Json :=
  jsOr (data.get "token")
    (jsOr (optGet (data.get "data") "token")
      (jsOr (optGet (optGet (data.get "data") "session") "token") (.str "")))

/-- `getToken({force})`, with explicit state passing and a log of network
events.  `loginRaw` is the wire response the token endpoint would return
now. -/
def getToken (c : Config) (parse : String → Option Json)
    (loginRaw : RawHttpResponse) (now : Nat) (st : TokenState) (force : Bool) :
    Except ZErr (Json × TokenSource) × TokenState × List NetEvent :=
  if !force && !tokenExpired st now c.tokenTtlMs then
    (.ok (st.cachedToken, .cache), st, [])
  else if c.account = "" || c.password = "" then
    (.error .missingCredentials, st, [])
  else
    match fetchJson parse loginRaw with
    | .error e => (.error e, st, [.login])
    | .ok resp =>
      let token := probeToken resp.data
      if truthy token then
        (.ok (token, .login), ⟨token, now⟩, [.login])
      else
        (.error .tokenFieldMissing, st, [.login])

/-! ## Generic call operation (`call`) -/

/-- A dispatched request descriptor. -/
structure NetReq where
  path : String
  method : String
  query : List (String × Option Json)
  body : Option Json

/-- The world an operation runs against: configuration, the host JSON
parser, the token endpoint's current response, and the wire behaviour of
every other request. -/
structure Env where
  config : Config
  parse : String → Option Json
  loginRaw : RawHttpResponse
  net : NetReq → RawHttpResponse
  now : Nat

/-- `call({path, method, query, body})`: token first (login when needed),
then URL resolution, then one transport exchange. -/
def callOp (env : Env) (st : TokenState) (path method : String)
    (query : List (String × Option Json)) (body : Option Json) :
    Except ZErr Resp × TokenState × List NetEvent :=
  match getToken env.config env.parse env.loginRaw env.now st false with
  | (.error e, st1, ev1) => (.error e, st1, ev1)
  | (.ok _, st1, ev1) =>
    match buildUrl ⟨env.config.baseUrl, env.config.apiPrefix, path, query⟩ with
    | .error e => (.error e, st1, ev1)
    | .ok _ =>
      let req : NetReq := ⟨path, jsUpper method, query, body⟩
      (fetchJson env.parse (env.net req), st1,
        ev1 ++ [.request path (jsUpper method)])

/-! ## Response shape normalizer -/

/-- `parseBugsFromResponse(data)`. -/
def parseBugsFromResponse (d : Json) : List Json :=
  match d.get "bugs" with
  | some (.arr xs) => xs
  | _ =>
    match optGet (d.get "data") "bugs" with
    | some (.arr xs) => xs
    | _ =>
      match d.get "data" with
      | some (.arr xs) => xs
      | _ =>
        match d with
        | .arr xs => xs
        | _ => []

/-- `v && typeof v === "object"`, keeping the value when it passes. -/
def jsObjectish (v : Option Json) : Option Json :=
  match v with
  | some b => if truthy b && typeofObject b then some b else none
  | none => none

/-- `parseBugDetailFromResponse(data)`. -/
def parseBugDetailFromResponse (d : Json) : Option Json :=
  match jsObjectish (d.get "bug") with
  | some b => some b
  | none =>
    match jsObjectish (optGet (d.get "data") "bug") with
    | some b => some b
    | none =>
      match d.get "data" with
      | some dd =>
        if truthy dd && typeofObject dd && !isArray dd then some dd
        else if truthy d && typeofObject d && !isArray d then some d
        else none
      | none =>
        if truthy d && typeofObject d && !isArray d then some d
        else none

/-! ## Domain helpers -/

/-- `normalizeString(value)` of the source:
`String(value || "").trim().toLowerCase()`, over a possibly-absent value. -/
def normalizeString (value : Option Json) : String :=
  jsLower (jsTrim (jsToString (jsOr value (.str ""))))

/-- `normalizePositiveInt(value)`: `Number(value)` finite and positive. -/
def normalizePositiveInt (value : Option Json) : Option Int :=
  match value with
  | none => none
  | some v =>
    match jsNumber v with
    | some n => if n > 0 then some n else none
    | none => none

/-- `buildProductScopedBugsPath({productId, path})`; `productId` arrives
already normalized at the call site, re-normalizing is idempotent. -/
def buildProductScopedBugsPath (productId : Option Int) (path : String) :
    String :=
  let pid := match productId with
    | some n => if n > 0 then some n else none
    | none => none
  match pid with
  | none => if path = "" then "/bugs" else path
  | some p =>
    let basePath := if path = "" then "/bugs" else path
    if containsSubstr basePath "{productId}" then
      replaceAll basePath "{productId}" (toString p)
    else if basePath = "/bugs" then
      "/products/" ++ toString p ++ "/bugs"
    else basePath

/-- `isNeedProductIdError(err)`: probe message + stringified data for the
recognizable phrase. -/
def isNeedProductIdError (e : ZErr) : Bool :=
  let dataJson : Json := match e with
    | .http _ _ d => if truthy d then d else .str ""
    | _ => .str ""
  containsSubstr (jsLower (e.messageOf ++ " " ++ jsonStringify dataJson))
    "need product id"

/-- `buildResolutionComment({solution, comment, resolution})`. -/
def buildResolutionComment (solution comment resolution : String) : String :=
  let normalizedSolution := jsTrim solution
  if normalizedSolution ≠ "" then "解决说明：" ++ normalizedSolution
  else
    let normalizedComment := jsTrim comment
    if normalizedComment ≠ "" then normalizedComment
    else "已处理，resolution=" ++ (if resolution ≠ "" then resolution else "fixed")

/-- `getBugAssignee(bug)`: first truthy of the known assignee field names. -/
def getBugAssignee (bug : Json) : Json :=
  jsOr (bug.get "assignedTo")
    (jsOr (bug.get "assignedto")
      (jsOr (bug.get "assigned_to")
        (jsOr (bug.get "assignedUser")
          (jsOr (bug.get "owner") (.str "")))))

/-- The joined lowercase text the keyword filter searches. -/
def searchableText (bug : Json) : String :=
  let fields : List (Option Json) :=
    [bug.get "title", bug.get "severity", bug.get "pri", bug.get "steps",
      bug.get "status", some (getBugAssignee bug)]
  String.intercalate " "
    (((fields.filterMap id).filter truthy).map fun v => jsLower (jsToString v))

/-- `matchesBugFilters(bug, {status, keyword, assignee})`. -/
def matchesBugFilters (bug : Json) (status keyword assignee : String) : Bool :=
  let normalizedStatus := normalizeString (some (.str status))
  let normalizedKeyword := normalizeString (some (.str keyword))
  let normalizedAssignee := normalizeString (some (.str assignee))
  (normalizedStatus = "" || normalizeString (bug.get "status") = normalizedStatus)
  && (normalizedAssignee = ""
      || normalizeString (some (getBugAssignee bug)) = normalizedAssignee)
  && (normalizedKeyword = ""
      || containsSubstr (searchableText bug) normalizedKeyword)

/-- JS `a ?? b` over possibly-absent values. -/
def coalesce (a b : Option Json) : Option Json :=
  match a with
  | some .null => b
  | some v => some v
  | none => b

/-- `getBugId(bug)`: first non-nullish of the known id fields, as a finite
positive number. -/
def getBugId (bug : Json) : Option Int :=
  let v := coalesce (bug.get "id")
    (coalesce (bug.get "bugId")
      (coalesce (bug.get "bugID")
        (coalesce (bug.get "bug_id") (optGet (bug.get "bug") "id"))))
  match v with
  | none => none
  | some j =>
    match jsNumber j with
    | some n => if n > 0 then some n else none
    | none => none

/-- `buildBugTransitionPath({id, path, action})`.  Every call site passes a
constant non-empty action, so the source's emptiness throw is unreachable
and omitted. -/
def buildBugTransitionPath (id : Int) (path action : String) : String :=
  let safeAction := jsTrim action
  let basePath := if path = "" then "/bugs/{id}/" ++ safeAction else path
  if containsSubstr basePath "{id}" then
    replaceAll basePath "{id}" (toString id)
  else
    dropTrailingSlashes basePath ++ "/" ++ toString id ++ "/" ++ safeAction

/-- `buildBugCommentPath({id, path})`. -/
def buildBugCommentPath (id : Int) (path : String) : String :=
  let basePath := if path = "" then "/bugs/{id}/comment" else path
  if containsSubstr basePath "{id}" then
    replaceAll basePath "{id}" (toString id)
  else
    dropTrailingSlashes basePath ++ "/" ++ toString id ++ "/comment"

/-! ## Domain operations -/

/-- Result of `resolveBug`. -/
structure ResolveOut where
  id : Int
  resolved : Bool
  resolution : String
  solution : String
  comment : String
  raw : Resp

/-- `resolveBug({id, resolution, solution, comment, path})`. -/
def resolveBug (env : Env) (st : TokenState) (id : Int)
    (resolution solution comment path : String) :
    Except ZErr ResolveOut × TokenState × List NetEvent :=
  if id < 1 then (.error (.invalidBugId "resolveBug"), st, [])
  else
    let resolvePath := buildBugTransitionPath id path "resolve"
    let resolvedValue := if resolution = "" then "fixed" else resolution
    let resolvedComment := buildResolutionComment solution comment resolvedValue
    let body := Json.obj
      [("resolution", .str resolvedValue), ("comment", .str resolvedComment)]
    match callOp env st resolvePath "POST" [] (some body) with
    | (.error e, st1, ev) => (.error e, st1, ev)
    | (.ok resp, st1, ev) =>
      (.ok ⟨id, true, resolvedValue, solution.trim, resolvedComment, resp⟩,
        st1, ev)

/-- Result of `closeBug` / `activateBug`. -/
structure TransitionOut where
  id : Int
  raw : Resp

/-- `closeBug({id, comment, path})`. -/
def closeBug (env : Env) (st : TokenState) (id : Int) (comment path : String) :
    Except ZErr TransitionOut × TokenState × List NetEvent :=
  if id < 1 then (.error (.invalidBugId "closeBug"), st, [])
  else
    let closePath := buildBugTransitionPath id path "close"
    let body : Json :=
      if comment ≠ "" then .obj [("comment", .str comment)] else .obj []
    match callOp env st closePath "POST" [] (some body) with
    | (.error e, st1, ev) => (.error e, st1, ev)
    | (.ok resp, st1, ev) => (.ok ⟨id, resp⟩, st1, ev)

/-- `activateBug({id, comment, path})`. -/
def activateBug (env : Env) (st : TokenState) (id : Int)
    (comment path : String) :
    Except ZErr TransitionOut × TokenState × List NetEvent :=
  if id < 1 then (.error (.invalidBugId "activateBug"), st, [])
  else
    let activatePath := buildBugTransitionPath id path "activate"
    let body : Json :=
      if comment ≠ "" then .obj [("comment", .str comment)] else .obj []
    match callOp env st activatePath "POST" [] (some body) with
    | (.error e, st1, ev) => (.error e, st1, ev)
    | (.ok resp, st1, ev) => (.ok ⟨id, resp⟩, st1, ev)

/-- Result of `verifyBug`. -/
structure VerifyOut where
  id : Int
  result : String
  action : String
  raw : Resp

/-- `verifyBug({id, result, comment, closePath, activatePath})`. -/
def verifyBug (env : Env) (st : TokenState) (id : Int)
    (result comment closePath activatePath : String) :
    Except ZErr VerifyOut × TokenState × List NetEvent :=
  let normalizedResult :=
    normalizeString (some (.str (if result = "" then "pass" else result)))
  if normalizedResult ≠ "pass" && normalizedResult ≠ "fail" then
    (.error .invalidVerifyResult, st, [])
  else if normalizedResult = "pass" then
    match closeBug env st id comment closePath with
    | (.error e, st1, ev) => (.error e, st1, ev)
    | (.ok c, st1, ev) => (.ok ⟨id, "pass", "close", c.raw⟩, st1, ev)
  else
    match activateBug env st id comment activatePath with
    | (.error e, st1, ev) => (.error e, st1, ev)
    | (.ok a, st1, ev) => (.ok ⟨id, "fail", "activate", a.raw⟩, st1, ev)

/-- Result of `commentBug`. -/
structure CommentOut where
  id : Int
  comment : String
  rawStatus : Nat
  rawPath : String
  rawData : Json

/-- `commentBug({id, comment, path})`: on a 404 from the primary path, retry
once against the pluralized path. -/
def commentBug (env : Env) (st : TokenState) (id : Int)
    (comment path : String) :
    Except ZErr CommentOut × TokenState × List NetEvent :=
  if id < 1 then (.error (.invalidBugId "commentBug"), st, [])
  else
    let text := jsTrim comment
    if text = "" then (.error .emptyComment, st, [])
    else
      let primaryPath := buildBugCommentPath id path
      let body := Json.obj [("comment", .str text)]
      match callOp env st primaryPath "POST" [] (some body) with
      | (.ok resp, st1, ev) =>
        (.ok ⟨id, text, resp.status, primaryPath, resp.data⟩, st1, ev)
      | (.error e, st1, ev) =>
        let fallbackPath :=
          if strEndsWith primaryPath "/comment" then
            primaryPath.dropRight "/comment".length ++ "/comments"
          else primaryPath
        if fallbackPath ≠ primaryPath && e.statusOf = some 404 then
          match callOp env st1 fallbackPath "POST" [] (some body) with
          | (.ok resp, st2, ev2) =>
            (.ok ⟨id, text, resp.status, fallbackPath, resp.data⟩, st2, ev ++ ev2)
          | (.error e2, st2, ev2) => (.error e2, st2, ev ++ ev2)
        else (.error e, st1, ev)

/-! ## List-my-bugs and the batch orchestrator -/

/-- Arguments of `getMyBugs` (JS defaults made explicit by callers; an empty
string stands for an absent string argument, `0` for an absent number). -/
structure MyBugsArgs where
  status : String
  keyword : String
  limit : Int
  page : Int
  productId : Option Json
  path : String
  assignedTo : String

/-- Result of `getMyBugs`. -/
structure MyBugsOut where
  total : Nat
  matched : Nat
  page : Int
  limit : Int
  productId : Option Int
  assignedTo : String
  bugs : List Json
  rawStatus : Nat
  rawPath : String

/-- `getMyBugs(...)`: server-side query, one optional product-scope fallback
retry, then the client-side re-filter. -/
def getMyBugs (env : Env) (st : TokenState) (a : MyBugsArgs) :
    Except ZErr MyBugsOut × TokenState × List NetEvent :=
  let safeLimit := max 1 (min (if a.limit = 0 then 20 else a.limit) 200)
  let safePage := max 1 (if a.page = 0 then 1 else a.page)
  let assignee :=
    let fromArg := normalizeString (some (.str a.assignedTo))
    if fromArg ≠ "" then fromArg
    else normalizeString (some (.str env.config.account))
  let effectiveProductId :=
    match normalizePositiveInt a.productId with
    | some p => some p
    | none => normalizePositiveInt env.config.defaultProductId
  let primaryPath := buildProductScopedBugsPath effectiveProductId a.path
  let query : List (String × Option Json) :=
    [("limit", some (.num safeLimit)), ("page", some (.num safePage)),
      ("assignedTo", if assignee = "" then none else some (.str assignee)),
      ("status", if a.status = "" then none else some (.str a.status)),
      ("product", effectiveProductId.map fun p => .num p)]
  let finish (resp : Resp) (st1 : TokenState) (ev1 : List NetEvent) :
      Except ZErr MyBugsOut × TokenState × List NetEvent :=
    let bugs := parseBugsFromResponse resp.data
    let filtered := bugs.filter fun bug =>
      matchesBugFilters bug a.status a.keyword assignee
    (.ok ⟨bugs.length, filtered.length, safePage, safeLimit,
        effectiveProductId, assignee, filtered, resp.status, primaryPath⟩,
      st1, ev1)
  match callOp env st primaryPath "GET" query none with
  | (.ok resp, st1, ev1) => finish resp st1 ev1
  | (.error err, st1, ev1) =>
    match effectiveProductId with
    | some p =>
      let fallbackPath := "/products/" ++ toString p ++ "/bugs"
      if primaryPath ≠ fallbackPath && isNeedProductIdError err then
        match callOp env st1 fallbackPath "GET"
            [("limit", some (.num safeLimit)), ("page", some (.num safePage))]
            none with
        | (.ok resp, st2, ev2) => finish resp st2 (ev1 ++ ev2)
        | (.error e2, st2, ev2) => (.error e2, st2, ev1 ++ ev2)
      else (.error err, st1, ev1)
    | none => (.error err, st1, ev1)

/-- One successful batch item (`{id, status}`). -/
structure BatchItemOk where
  id : Int
  status : Nat
deriving Repr, DecidableEq

/-- One failed batch item (`{id, error}`). -/
structure BatchItemErr where
  id : Option Int
  error : String
deriving Repr, DecidableEq

/-- The sequential resolve loop of `batchResolveMyBugs`: one candidate at a
time, recording per-item success/failure, halting at the first failure when
`stopOnError` is set. -/
def batchLoop (env : Env) (resolution solution comment resolvePath : String)
    (stopOnError : Bool) (st : TokenState) :
    List Json → TokenState × List NetEvent × List BatchItemOk × List BatchItemErr
  | [] => (st, [], [], [])
  | bug :: rest =>
    match getBugId bug with
    | none =>
      let f : BatchItemErr := ⟨none, "Missing bug id in list item"⟩
      if stopOnError then (st, [], [], [f])
      else
        let (st', ev, oks, errs) :=
          batchLoop env resolution solution comment resolvePath stopOnError st rest
        (st', ev, oks, f :: errs)
    | some bugId =>
      match resolveBug env st bugId resolution solution comment resolvePath with
      | (.ok r, st1, ev1) =>
        let (st', ev, oks, errs) :=
          batchLoop env resolution solution comment resolvePath stopOnError st1 rest
        (st', ev1 ++ ev, ⟨bugId, r.raw.status⟩ :: oks, errs)
      | (.error e, st1, ev1) =>
        let f : BatchItemErr := ⟨some bugId, e.messageOf⟩
        if stopOnError then (st1, ev1, [], [f])
        else
          let (st', ev, oks, errs) :=
            batchLoop env resolution solution comment resolvePath stopOnError st1 rest
          (st', ev1 ++ ev, oks, f :: errs)

/-- Arguments of `batchResolveMyBugs`. -/
structure BatchArgs where
  status : String
  keyword : String
  limit : Int
  page : Int
  productId : Option Json
  maxItems : Int
  assignedTo : String
  resolution : String
  solution : String
  comment : String
  listPath : String
  resolvePath : String
  stopOnError : Bool

/-- The returned `BatchOutcome`. -/
structure BatchOutcome where
  requested : Nat
  attempted : Nat
  resolved : Nat
  failed : Nat
  success : List BatchItemOk
  errors : List BatchItemErr

/-- `batchResolveMyBugs(...)`: list once, truncate to `maxItems`, resolve
sequentially. -/
def batchResolveMyBugs (env : Env) (st : TokenState) (a : BatchArgs) :
    Except ZErr BatchOutcome × TokenState × List NetEvent :=
  let safeMaxItems := max 1 (min (if a.maxItems = 0 then 50 else a.maxItems) 500)
  match getMyBugs env st
      ⟨a.status, a.keyword, a.limit, a.page, a.productId, a.listPath,
        a.assignedTo⟩ with
  | (.error e, st1, ev1) => (.error e, st1, ev1)
  | (.ok listResult, st1, ev1) =>
    let candidates := listResult.bugs.take safeMaxItems.toNat
    let (st2, ev2, oks, errs) :=
      batchLoop env a.resolution a.solution a.comment a.resolvePath
        a.stopOnError st1 candidates
    (.ok ⟨listResult.matched, candidates.length, oks.length, errs.length,
        oks, errs⟩,
      st2, ev1 ++ ev2)

/-! ## Spec-side extraction strategies (C9) and concrete fixtures -/

/-- The first array among candidate values, in order (spec §4.5's "explicit
ordered list of extraction strategies"). -/
def firstArrayOf : List (Option Json) → Option (List Json)
  | [] => none
  | v :: rest =>
    match v with
    | some (.arr xs) => some xs
    | _ => firstArrayOf rest

/-- The spec's ordered list extraction: named list field, nested list
fields under `data`, bare top-level list; empty list when nothing
matches. -/
def specOrderedListExtraction (d : Json) : List Json :=
  (firstArrayOf
    [d.get "bugs", optGet (d.get "data") "bugs", d.get "data", some d]).getD []

/-- A candidate accepted as a bare detail record: a truthy non-array
object. -/
def asNonArrayObject (v : Option Json) : Option Json :=
  match v with
  | some x => if truthy x && typeofObject x && !isArray x then some x else none
  | none => none

/-- The first present candidate, in order. -/
def firstSomeOf : List (Option Json) → Option Json
  | [] => none
  | some x :: _ => some x
  | none :: rest => firstSomeOf rest

/-- The spec's ordered detail extraction: named singular field, nested
singular field under `data`, then non-array objects; absent-record sentinel
when nothing matches. -/
def specOrderedDetailExtraction (d : Json) : Option Json :=
  firstSomeOf
    [jsObjectish (d.get "bug"), jsObjectish (optGet (d.get "data") "bug"),
      asNonArrayObject (d.get "data"), asNonArrayObject (some d)]

/-- Configuration used by the C2 witness. -/
def tokenCfgW : Config :=
  ⟨"http://z.example", "/api.php/v1", "/api.php/v1/tokens", 1000000, none,
    "me", "pw"⟩

/-- Host JSON parser used by the C2 witness. -/
def tokenParseW : String → Option Json := fun s =>
  if s = "TOK" then some (.obj [("token", .str "tok")]) else none

/-- Token endpoint response used by the C2 witness. -/
def tokenRawW : RawHttpResponse := ⟨200, "application/json", "TOK"⟩

/-- Shared demo configuration for concrete scenarios. -/
def demoCfg : Config :=
  ⟨"http://z.example", "/api.php/v1", "/api.php/v1/tokens", 1000000, none,
    "me", "pw"⟩

/-- A demo bug record assigned to the configured account. -/
def demoBug (i : Int) : Json :=
  .obj [("id", .num i), ("status", .str "active"), ("assignedTo", .str "me")]

/-- A demo list body holding five active bugs. -/
def demoListJson : Json :=
  .obj [("bugs", .arr [demoBug 1, demoBug 2, demoBug 3, demoBug 4, demoBug 5])]

/-- The demo host JSON parser. -/
def demoParse : String → Option Json := fun s =>
  if s = "LIST" then some demoListJson
  else if s = "OK" then some (.obj [])
  else if s = "TOK" then some (.obj [("token", .str "tok")])
  else none

/-- The demo wire behaviour: listing succeeds, resolving bug 3 fails with a
500, bug 7's comment path is a 404 whose pluralized fallback is a 502,
everything else succeeds. -/
def demoNet : NetReq → RawHttpResponse := fun req =>
  if req.path = "/bugs" then ⟨200, "application/json", "LIST"⟩
  else if req.path = "/bugs/3/resolve" then ⟨500, "", "boom"⟩
  else if req.path = "/bugs/7/comment" then ⟨404, "", "Not Found"⟩
  else if req.path = "/bugs/7/comments" then ⟨502, "", "bad gateway"⟩
  else ⟨200, "application/json", "OK"⟩

/-- The demo world; time 10, login works. -/
def demoEnv : Env :=
  ⟨demoCfg, demoParse, ⟨200, "application/json", "TOK"⟩, demoNet, 10⟩

/-- A fresh token cache at time 10 (no login needed). -/
def demoSt : TokenState := ⟨.str "tok", 5⟩

/-- Demo batch arguments: resolve my active bugs, stop on the first
error. -/
def demoBatchArgs : BatchArgs :=
  { status := "active", keyword := "", limit := 50, page := 1,
    productId := none, maxItems := 50, assignedTo := "",
    resolution := "fixed", solution := "", comment := "",
    listPath := "/bugs", resolvePath := "/bugs/{id}/resolve",
    stopOnError := true }

/-- The demo world with blank credentials (C4's second scenario). -/
def noCredEnv : Env :=
  { demoEnv with
      config := ⟨"http://z.example", "/api.php/v1", "/api.php/v1/tokens",
        1000000, none, "", ""⟩ }

/-- The demo batch rerun with `stopOnError=false` (C1's witness run). -/
def demoBatchArgsNoStop : BatchArgs := { demoBatchArgs with stopOnError := false }

/-- The outcome of the `stopOnError=false` demo batch. -/
def demoOutcomeNoStop : BatchOutcome :=
  ⟨5, 5, 4, 1,
    [⟨1, 200⟩, ⟨2, 200⟩, ⟨4, 200⟩, ⟨5, 200⟩],
    [⟨some 3, "Request failed 500: boom"⟩]⟩

/-- The network trace of the `stopOnError=false` demo batch. -/
def demoEventsNoStop : List NetEvent :=
  [.request "/bugs" "GET", .request "/bugs/1/resolve" "POST",
    .request "/bugs/2/resolve" "POST", .request "/bugs/3/resolve" "POST",
    .request "/bugs/4/resolve" "POST", .request "/bugs/5/resolve" "POST"]

/-! # Theorems -/

/-! ## C5 — resolution comment precedence -/

/-- **C5**: the comment emitted by the resolve operation comes from exactly
one of three sources, with strict precedence: a non-blank solution (wrapped
with the fixed label, independently of any comment argument), else a
non-blank comment, else the generated fallback naming the resolution code;
in particular `{solution: "A", comment: "B"}` yields a comment derived from
the solution only, which does not contain `"B"`. -/
theorem resolution_comment_precedence (solution c₁ c₂ resolution : String) :
    (jsTrim solution ≠ "" →
      buildResolutionComment solution c₁ resolution
          = "解决说明：" ++ jsTrim solution
        ∧ buildResolutionComment solution c₁ resolution
            = buildResolutionComment solution c₂ resolution)
    ∧ (jsTrim solution = "" → jsTrim c₁ ≠ "" →
        buildResolutionComment solution c₁ resolution = jsTrim c₁)
    ∧ (jsTrim solution = "" → jsTrim c₁ = "" →
        buildResolutionComment solution c₁ resolution
          = "已处理，resolution="
              ++ (if resolution ≠ "" then resolution else "fixed"))
    ∧ (buildResolutionComment "A" "B" "fixed" = "解决说明：A"
        ∧ ¬ List.IsInfix "B".data (buildResolutionComment "A" "B" "fixed").data) := by
  refine ⟨fun hs => ⟨?_, ?_⟩, fun hs hc => ?_, fun hs hc => ?_, by decide, by decide⟩
  · simp [buildResolutionComment, hs]
  · simp [buildResolutionComment, hs]
  · simp [buildResolutionComment, hs, hc]
  · simp [buildResolutionComment, hs, hc]

/-- Witness for C5 at `{solution: "A", comment: "B"}`. -/
theorem resolution_comment_precedence_witness :
    buildResolutionComment "A" "B" "fixed" = "解决说明：" ++ jsTrim "A" :=
  ((resolution_comment_precedence "A" "B" "X" "fixed").1 (by decide)).1

/-! ## C10 — failed token refresh leaves the cache untouched -/

/-- **C10**: whenever `getToken` fails (missing credentials, transport/HTTP
failure of the login call, or no token field in the login response), the
cached credential and its timestamp are returned unchanged. -/
theorem getToken_error_preserves_cache (c : Config)
    (parse : String → Option Json) (loginRaw : RawHttpResponse)
    (now : Nat) (st : TokenState) (force : Bool) (e : ZErr)
    (h : (getToken c parse loginRaw now st force).1 = .error e) :
    (getToken c parse loginRaw now st force).2.1 = st := by
  unfold getToken at h ⊢
  split at h <;> split <;> simp_all <;>
    (try split at h) <;> (try split) <;> simp_all <;>
    (try split at h) <;> (try split) <;> simp_all

/-- Witness for C10: a login with missing credentials leaves the empty
initial cache in place. -/
theorem getToken_error_preserves_cache_witness :
    (getToken ⟨"http://z.example", "/api.php/v1", "/api.php/v1/tokens",
        1000, none, "", "pw"⟩
      (fun _ => none) ⟨200, "", ""⟩ 3 ⟨.str "", 0⟩ true).2.1 = ⟨.str "", 0⟩ :=
  getToken_error_preserves_cache _ _ _ _ _ _ .missingCredentials rfl

/-! ## C9 — ordered fallback extraction of list/detail payloads -/

/-- **C9**: the response normalizers equal the spec's ordered-strategy
chains — each strategy is tried in order and the empty-list / absent-record
sentinel is returned when no shape matches; both are total functions (they
never throw). -/
theorem response_normalizer_ordered_fallback (d : Json) :
    parseBugsFromResponse d = specOrderedListExtraction d
    ∧ parseBugDetailFromResponse d = specOrderedDetailExtraction d := by
  constructor
  · unfold parseBugsFromResponse specOrderedListExtraction firstArrayOf
    repeat' (first
      | rfl
      | simp_all only [firstArrayOf, Option.getD_some, Option.getD_none]
      | split
      | simp_all)
  · unfold parseBugDetailFromResponse specOrderedDetailExtraction firstSomeOf
      asNonArrayObject jsObjectish
    repeat' (first
      | rfl
      | simp_all
      | split)

/-! ## C8 — non-2xx responses become status-carrying errors with a
truncated body -/

/-- **C8**: a non-2xx exchange fails with the transport error carrying the
numeric status code (so callers can branch on it) and the decoded body
text, of which at most 2000 characters are retained — kept whole when it
fits, else cut to exactly 2000 characters plus the fixed truncation
marker. -/
theorem http_error_status_and_truncated_body (parse : String → Option Json)
    (r : RawHttpResponse) (h : r.status < 200 ∨ 299 < r.status) :
    ∃ data, fetchJson parse r = .error (.http r.status (truncate r.text 2000) data)
      ∧ (ZErr.http r.status (truncate r.text 2000) data).statusOf = some r.status
      ∧ (r.text.length ≤ 2000 → truncate r.text 2000 = r.text)
      ∧ (2000 < r.text.length →
          truncate r.text 2000 = r.text.take 2000 ++ "...(truncated)"
            ∧ (r.text.take 2000).length = 2000) := by
  refine ⟨(if containsSubstr r.contentType "application/json" then
      match parse r.text with
      | some j => j
      | none => .str r.text
    else .str r.text), ?_, rfl, fun hle => ?_, fun hgt => ⟨?_, ?_⟩⟩
  · rw [fetchJson, if_neg (by omega)]
  · rw [truncate, if_pos hle]
  · rw [truncate, if_neg (by omega)]
  · rw [String.take_eq]
    show (r.text.data.take 2000).length = 2000
    rw [List.length_take]
    have hdl : r.text.data.length = r.text.length := rfl
    omega

/-- Witness for C8: a 404 with body `"Not Found"`. -/
theorem http_error_status_and_truncated_body_witness :
    ∃ data, fetchJson (fun _ => none) ⟨404, "", "Not Found"⟩
        = .error (.http 404 (truncate "Not Found" 2000) data)
      ∧ (ZErr.http 404 (truncate "Not Found" 2000) data).statusOf = some 404
      ∧ (("Not Found" : String).length ≤ 2000 →
          truncate "Not Found" 2000 = "Not Found")
      ∧ (2000 < ("Not Found" : String).length →
          truncate "Not Found" 2000
              = ("Not Found" : String).take 2000 ++ "...(truncated)"
            ∧ (("Not Found" : String).take 2000).length = 2000) :=
  http_error_status_and_truncated_body (fun _ => none) ⟨404, "", "Not Found"⟩
    (by decide)

/-! ## C2 — token TTL and forced refresh policy -/

/-- **C2**: a non-forced `getToken` within the TTL window of a cached,
timestamped token reuses it with `source="cache"` and no network traffic;
a call after the TTL has elapsed — or with a never-set or never-timestamped
token — performs a login and answers `source="login"`; `force=true` always
performs a login regardless of the cache's age. -/
theorem getToken_ttl_cache_policy
    (c : Config) (parse : String → Option Json) (loginRaw : RawHttpResponse)
    (resp : Resp) (tok : Json) (t1 t2 : Nat) (st : TokenState)
    (hacct : c.account ≠ "") (hpass : c.password ≠ "")
    (hl : fetchJson parse loginRaw = .ok resp)
    (ht : truthy (probeToken resp.data) = true) :
    (truthy tok = true → t1 ≠ 0 → t2 - t1 ≤ c.tokenTtlMs →
      getToken c parse loginRaw t2 ⟨tok, t1⟩ false
        = (.ok (tok, .cache), ⟨tok, t1⟩, []))
    ∧ (c.tokenTtlMs < t2 - t1 →
        getToken c parse loginRaw t2 ⟨tok, t1⟩ false
          = (.ok (probeToken resp.data, .login),
              ⟨probeToken resp.data, t2⟩, [.login]))
    ∧ (truthy st.cachedToken = false →
        getToken c parse loginRaw t2 st false
          = (.ok (probeToken resp.data, .login),
              ⟨probeToken resp.data, t2⟩, [.login]))
    ∧ (st.cachedAt = 0 →
        getToken c parse loginRaw t2 st false
          = (.ok (probeToken resp.data, .login),
              ⟨probeToken resp.data, t2⟩, [.login]))
    ∧ getToken c parse loginRaw t2 st true
        = (.ok (probeToken resp.data, .login),
            ⟨probeToken resp.data, t2⟩, [.login]) := by
  refine ⟨fun htok ht1 hle => ?_, fun hgt => ?_, fun hnt => ?_,
    fun hts => ?_, ?_⟩
  · have hexp : tokenExpired ⟨tok, t1⟩ t2 c.tokenTtlMs = false := by
      simp [tokenExpired, htok, ht1]
      omega
    simp [getToken, hexp]
  · have hexp : tokenExpired ⟨tok, t1⟩ t2 c.tokenTtlMs = true := by
      unfold tokenExpired
      repeat' split
      · rfl
      · rfl
      · simp
        omega
    simp [getToken, hexp, hacct, hpass, hl, ht]
  · have hexp : tokenExpired st t2 c.tokenTtlMs = true := by
      simp [tokenExpired, hnt]
    simp [getToken, hexp, hacct, hpass, hl, ht]
  · have hexp : tokenExpired st t2 c.tokenTtlMs = true := by
      unfold tokenExpired
      repeat' split <;> simp_all
    simp [getToken, hexp, hacct, hpass, hl, ht]
  · simp [getToken, hacct, hpass, hl, ht]

/-- Witness for C2: the token `"tok"` cached at time 5 is reused from the
cache at time 10 under a large TTL. -/
theorem getToken_ttl_cache_policy_witness :
    getToken tokenCfgW tokenParseW tokenRawW 10 ⟨.str "tok", 5⟩ false
      = (.ok (.str "tok", .cache), ⟨.str "tok", 5⟩, []) :=
  (getToken_ttl_cache_policy tokenCfgW tokenParseW tokenRawW
      ⟨200, .obj [("token", .str "tok")]⟩ (.str "tok") 5 10 ⟨.str "", 0⟩
      (by decide) (by decide) rfl (by decide)).1
    (by decide) (by decide) (by decide)

/-! ## C6 — verify is a pure client-side dispatch -/

/-- **C6**: `verifyBug` with a result normalizing to `"pass"` is exactly the
close operation (wrapped as a verify outcome with `action="close"`); a
result normalizing to `"fail"` is exactly the activate operation
(`action="activate"`); any other value fails with `InvalidVerifyResult`
before any network exchange (no events). -/
theorem verify_dispatch (env : Env) (st : TokenState) (id : Int)
    (result comment closePath activatePath : String) :
    (normalizeString (some (.str (if result = "" then "pass" else result)))
        = "pass" →
      verifyBug env st id result comment closePath activatePath
        = (match closeBug env st id comment closePath with
           | (.error e, st1, ev) => (.error e, st1, ev)
           | (.ok c, st1, ev) => (.ok ⟨id, "pass", "close", c.raw⟩, st1, ev)))
    ∧ (normalizeString (some (.str (if result = "" then "pass" else result)))
        = "fail" →
      verifyBug env st id result comment closePath activatePath
        = (match activateBug env st id comment activatePath with
           | (.error e, st1, ev) => (.error e, st1, ev)
           | (.ok a, st1, ev) =>
             (.ok ⟨id, "fail", "activate", a.raw⟩, st1, ev)))
    ∧ (normalizeString (some (.str (if result = "" then "pass" else result)))
        ≠ "pass" →
      normalizeString (some (.str (if result = "" then "pass" else result)))
        ≠ "fail" →
      verifyBug env st id result comment closePath activatePath
        = (.error .invalidVerifyResult, st, [])) := by
  refine ⟨fun hp => ?_, fun hf => ?_, fun hnp hnf => ?_⟩
  · simp only [verifyBug, hp]
    simp
  · simp only [verifyBug, hf]
    simp
  · simp only [verifyBug]
    rw [if_pos]
    simp [hnp, hnf]

/-- Witness for C6: `result="Fail "` (trimmed and lower-cased to `"fail"`)
dispatches to the activate operation. -/
theorem verify_dispatch_witness :
    verifyBug demoEnv demoSt 2 "Fail " "done" "/bugs/{id}/close"
        "/bugs/{id}/activate"
      = (match activateBug demoEnv demoSt 2 "done" "/bugs/{id}/activate" with
         | (.error e, st1, ev) => (.error e, st1, ev)
         | (.ok a, st1, ev) => (.ok ⟨2, "fail", "activate", a.raw⟩, st1, ev)) :=
  (verify_dispatch demoEnv demoSt 2 "Fail " "done" "/bugs/{id}/close"
      "/bugs/{id}/activate").2.1 (by decide)

/-! ## C7 — comment 404 fallback retries exactly once -/

/-- **C7**: when the primary comment POST fails, a failure other than
HTTP 404 propagates with no retry (exactly one request); an HTTP 404 on a
pluralizable path triggers exactly one retry against the pluralized path,
and if that retry also fails, the fallback's error is what surfaces. -/
theorem comment_fallback_retry (env : Env) (st : TokenState) (id : Int)
    (comment path : String) (e1 : ZErr)
    (hid : 1 ≤ id)
    (hfresh : tokenExpired st env.now env.config.tokenTtlMs = false)
    (htext : jsTrim comment ≠ "")
    (hurl1 : buildBugCommentPath id path ≠ "")
    (hurl1a : isProbablyAbsoluteUrl (buildBugCommentPath id path) = false)
    (hprim : fetchJson env.parse (env.net
        ⟨buildBugCommentPath id path, "POST", [],
          some (.obj [("comment", .str (jsTrim comment))])⟩) = .error e1) :
    (e1.statusOf ≠ some 404 →
      commentBug env st id comment path
        = (.error e1, st, [.request (buildBugCommentPath id path) "POST"]))
    ∧ (∀ e2 : ZErr, e1.statusOf = some 404 →
        strEndsWith (buildBugCommentPath id path) "/comment" = true →
        (buildBugCommentPath id path).dropRight "/comment".length ++ "/comments"
            ≠ buildBugCommentPath id path →
        (buildBugCommentPath id path).dropRight "/comment".length ++ "/comments"
            ≠ "" →
        isProbablyAbsoluteUrl ((buildBugCommentPath id path).dropRight
            "/comment".length ++ "/comments") = false →
        fetchJson env.parse (env.net
            ⟨(buildBugCommentPath id path).dropRight "/comment".length
                ++ "/comments", "POST", [],
              some (.obj [("comment", .str (jsTrim comment))])⟩) = .error e2 →
        commentBug env st id comment path
          = (.error e2, st,
              [.request (buildBugCommentPath id path) "POST",
                .request ((buildBugCommentPath id path).dropRight
                    "/comment".length ++ "/comments") "POST"])) := by
  have hlt : ¬ id < 1 := by omega
  have hcall : callOp env st (buildBugCommentPath id path) "POST" []
      (some (.obj [("comment", .str (jsTrim comment))]))
      = (.error e1, st, [.request (buildBugCommentPath id path) "POST"]) := by
    simp [callOp, getToken, hfresh, buildUrl, hurl1, hurl1a, hprim, jsUpper,
      upperChar]
  constructor
  · intro h404
    simp only [commentBug, if_neg hlt, if_neg htext, hcall]
    simp [h404]
  · intro e2 h404 hsuf hne hfb1 hfb2 hfall
    have hcall2 : callOp env st ((buildBugCommentPath id path).dropRight
        "/comment".length ++ "/comments") "POST" []
        (some (.obj [("comment", .str (jsTrim comment))]))
        = (.error e2, st,
            [.request ((buildBugCommentPath id path).dropRight
                "/comment".length ++ "/comments") "POST"]) := by
      simp [callOp, getToken, hfresh, buildUrl, hfb1, hfb2, hfall, jsUpper,
        upperChar]
    simp only [commentBug, if_neg hlt, if_neg htext, hcall]
    simp [hsuf, hne, h404, hcall2]

/-- Witness for C7: bug 7's comment path 404s, the pluralized retry gets a
502, and that 502 is what surfaces, after exactly two POSTs. -/
theorem comment_fallback_retry_witness :
    commentBug demoEnv demoSt 7 "hello" "/bugs/{id}/comment"
      = (.error (.http 502 "bad gateway" (.str "bad gateway")), demoSt,
          [.request (buildBugCommentPath 7 "/bugs/{id}/comment") "POST",
            .request ((buildBugCommentPath 7 "/bugs/{id}/comment").dropRight
                "/comment".length ++ "/comments") "POST"]) :=
  (comment_fallback_retry demoEnv demoSt 7 "hello" "/bugs/{id}/comment"
      (.http 404 "Not Found" (.str "Not Found"))
      (by decide) (by decide) (by decide) (by decide) (by decide) rfl).2
    (.http 502 "bad gateway" (.str "bad gateway"))
    rfl (by decide) (by decide) (by decide) (by decide) rfl

/-! ## C4 — empty/absolute paths are rejected, but after the token step -/

/-- The token step's network footprint is at most the login call. -/
theorem getToken_events_nil_or_login (c : Config)
    (parse : String → Option Json) (loginRaw : RawHttpResponse)
    (now : Nat) (st : TokenState) (force : Bool) :
    (getToken c parse loginRaw now st force).2.2 = []
    ∨ (getToken c parse loginRaw now st force).2.2 = [.login] := by
  unfold getToken
  split
  · simp
  · split
    · simp
    · split
      · simp
      · dsimp only
        split <;> simp

/-- **C4 counterexample**: with a cold token cache, a `call` against the
absolute path `http://evil.example/x` performs a login network request
*before* the path is rejected; and when credentials are missing, the
failure is the credentials error, not `InvalidPath`. -/
theorem invalid_path_counterexample :
    (callOp demoEnv ⟨.str "", 0⟩ "http://evil.example/x" "GET" [] none).2.2
        = [.login]
    ∧ (callOp demoEnv ⟨.str "", 0⟩ "http://evil.example/x" "GET" [] none).1
        = .error .pathMustBeRelative
    ∧ (callOp noCredEnv ⟨.str "", 0⟩ "http://evil.example/x" "GET" [] none).1
        = .error .missingCredentials :=
  ⟨rfl, rfl, rfl⟩

/-- **C4 amended**: an empty or absolute path is always rejected by the URL
resolver with the `InvalidPath` failure, and no request is ever dispatched
to any path; however the token step runs first, so a login request may
precede the rejection, and whenever the token step succeeds (in particular
on a warm cache, with no network at all) the call's failure is
`InvalidPath`. -/
theorem invalid_path_rejection_amended (env : Env) (st : TokenState)
    (path method : String) (query : List (String × Option Json))
    (body : Option Json)
    (hbad : path = "" ∨ isProbablyAbsoluteUrl path = true) :
    (∃ e, buildUrl ⟨env.config.baseUrl, env.config.apiPrefix, path, query⟩
        = .error e ∧ e.isInvalidPath = true)
    ∧ (∀ p m, NetEvent.request p m ∉ (callOp env st path method query body).2.2)
    ∧ (∀ tokres st1 ev1,
        getToken env.config env.parse env.loginRaw env.now st false
            = (.ok tokres, st1, ev1) →
        ∃ e, (callOp env st path method query body).1 = .error e
          ∧ e.isInvalidPath = true) := by
  have hb : ∃ e, buildUrl ⟨env.config.baseUrl, env.config.apiPrefix, path,
      query⟩ = .error e ∧ e.isInvalidPath = true := by
    by_cases hp : path = ""
    · exact ⟨.pathRequired, by simp [buildUrl, hp], rfl⟩
    · rcases hbad with h | h
      · exact absurd h hp
      · exact ⟨.pathMustBeRelative, by simp [buildUrl, hp, h], rfl⟩
  refine ⟨hb, ?_, ?_⟩
  · intro p m hmem
    obtain ⟨e, hbe, _⟩ := hb
    unfold callOp at hmem
    rcases hg : getToken env.config env.parse env.loginRaw env.now st false
      with ⟨res, st1, ev1⟩
    have hev : ev1 = [] ∨ ev1 = [.login] := by
      have := getToken_events_nil_or_login env.config env.parse env.loginRaw
        env.now st false
      rw [hg] at this
      exact this
    rcases res with e' | tokres
    · rw [hg] at hmem
      rcases hev with h | h <;> simp [h] at hmem
    · rw [hg, hbe] at hmem
      rcases hev with h | h <;> simp [h] at hmem
  · intro tokres st1 ev1 hg
    obtain ⟨e, hbe, hie⟩ := hb
    refine ⟨e, ?_, hie⟩
    unfold callOp
    rw [hg, hbe]

/-- Witness for C4's amended theorem: on a warm cache the absolute path is
rejected with `InvalidPath`. -/
theorem invalid_path_rejection_amended_witness :
    ∃ e, (callOp demoEnv demoSt "http://evil.example/x" "GET" [] none).1
        = .error e ∧ e.isInvalidPath = true :=
  (invalid_path_rejection_amended demoEnv demoSt "http://evil.example/x"
      "GET" [] none (Or.inr (by decide))).2.2
    (.str "tok", .cache) demoSt [] rfl

/-! ## C3 — resolved URL path and query semantics -/

/-- `searchParams.set` stores the value under an already-present key. -/
theorem lookup_map_replace (k v : String) :
    ∀ ps : List (String × String), ps.any (fun p => p.1 = k) = true →
      (ps.map fun p => if p.1 = k then (k, v) else p).lookup k = some v := by
  intro ps
  induction ps with
  | nil => simp
  | cons p rest ih =>
    intro hany
    obtain ⟨p1, p2⟩ := p
    by_cases hp : p1 = k
    · rw [List.map_cons]
      dsimp only
      rw [if_pos hp]
      simp only [List.lookup]
      rw [beq_self_eq_true]
    · have hrest : rest.any (fun p => p.1 = k) = true := by
        simp [hp] at hany
        simpa using hany
      have hk : ¬ k = p1 := fun h => hp h.symm
      rw [List.map_cons]
      dsimp only
      rw [if_neg hp]
      simp only [List.lookup]
      rw [beq_false_of_ne hk]
      exact ih hrest

/-- `searchParams.set` appends a missing key at the end. -/
theorem lookup_append_nokey (k v : String) :
    ∀ ps : List (String × String), ps.any (fun p => p.1 = k) = false →
      (ps ++ [(k, v)]).lookup k = some v := by
  intro ps
  induction ps with
  | nil => simp [List.lookup]
  | cons p rest ih =>
    intro hany
    obtain ⟨p1, p2⟩ := p
    simp only [List.any_cons, Bool.or_eq_false_iff] at hany
    have hp : ¬ p1 = k := by simpa using hany.1
    have hk : ¬ k = p1 := fun h => hp h.symm
    rw [List.cons_append]
    simp only [List.lookup]
    rw [beq_false_of_ne hk]
    exact ih hany.2

/-- Looking up the key just set yields the new value. -/
theorem lookup_setParam_self (ps : List (String × String)) (k v : String) :
    (setParam ps k v).lookup k = some v := by
  unfold setParam
  split
  · exact lookup_map_replace k v ps (by assumption)
  · rename_i h
    exact lookup_append_nokey k v ps (Bool.eq_false_iff.mpr h)

/-- Replacing one key's value leaves other keys' lookups unchanged. -/
theorem lookup_map_replace_other (k v k' : String) (hne : k' ≠ k) :
    ∀ ps : List (String × String),
      (ps.map fun p => if p.1 = k then (k, v) else p).lookup k' = ps.lookup k' := by
  intro ps
  induction ps with
  | nil => simp
  | cons p rest ih =>
    obtain ⟨p1, p2⟩ := p
    by_cases hp : p1 = k
    · rw [List.map_cons]
      dsimp only
      rw [if_pos hp]
      simp only [List.lookup]
      rw [beq_false_of_ne hne, beq_false_of_ne (hp ▸ hne)]
      exact ih
    · rw [List.map_cons]
      dsimp only
      rw [if_neg hp]
      by_cases hq : k' = p1
      · subst hq
        simp only [List.lookup]
        rw [beq_self_eq_true]
      · simp only [List.lookup]
        rw [beq_false_of_ne hq]
        exact ih

/-- Appending a fresh key leaves other keys' lookups unchanged. -/
theorem lookup_append_other (k v k' : String) (hne : k' ≠ k) :
    ∀ ps : List (String × String), (ps ++ [(k, v)]).lookup k' = ps.lookup k' := by
  intro ps
  induction ps with
  | nil =>
    simp only [List.nil_append, List.lookup]
    rw [beq_false_of_ne hne]
  | cons p rest ih =>
    obtain ⟨p1, p2⟩ := p
    rw [List.cons_append]
    by_cases hq : k' = p1
    · subst hq
      simp only [List.lookup]
      rw [beq_self_eq_true]
    · simp only [List.lookup]
      rw [beq_false_of_ne hq]
      exact ih

/-- `searchParams.set` does not disturb other keys. -/
theorem lookup_setParam_other (ps : List (String × String)) (k v k' : String)
    (hne : k' ≠ k) :
    (setParam ps k v).lookup k' = ps.lookup k' := by
  unfold setParam
  split
  · exact lookup_map_replace_other k v k' hne ps
  · exact lookup_append_other k v k' hne ps

/-- In-place replacement keeps the key list unchanged. -/
theorem keys_map_replace (k v : String) (ps : List (String × String)) :
    (ps.map fun p => if p.1 = k then (k, v) else p).map Prod.fst
      = ps.map Prod.fst := by
  induction ps with
  | nil => rfl
  | cons p rest ih =>
    obtain ⟨p1, p2⟩ := p
    by_cases hp : p1 = k <;> simp [hp, ih]

/-- `searchParams.set` preserves distinctness of keys. -/
theorem nodup_setParam (ps : List (String × String)) (k v : String)
    (h : (ps.map Prod.fst).Nodup) :
    ((setParam ps k v).map Prod.fst).Nodup := by
  unfold setParam
  split
  · rw [keys_map_replace]
    exact h
  · rename_i hany
    have hnot : ∀ p ∈ ps, ¬ p.1 = k := by
      intro p hp hk
      exact hany (List.any_eq_true.mpr ⟨p, hp, by simp [hk]⟩)
    simp only [List.map_append, List.map_cons, List.map_nil]
    rw [List.nodup_append]
    refine ⟨h, List.nodup_singleton k, ?_⟩
    intro x hx hxk
    obtain ⟨p, hp, hpx⟩ := List.mem_map.mp hx
    simp only [List.mem_singleton] at hxk
    exact hnot p hp (hpx.trans hxk)

/-- The query fold realizes last-write-wins lookup over defined entries. -/
theorem foldl_applyQueryEntry_lookup (k : String) :
    ∀ (query : List (String × Option Json)) (ps : List (String × String)),
      (query.foldl applyQueryEntry ps).lookup k
        = match lastDefinedValue query k with
          | some v => some v
          | none => ps.lookup k := by
  intro query
  induction query with
  | nil => intro ps; simp [lastDefinedValue]
  | cons kv rest ih =>
    intro ps
    rw [List.foldl_cons, ih]
    rcases hr : lastDefinedValue rest k with _ | v
    · simp only [lastDefinedValue, hr]
      by_cases hk : kv.1 = k
      · rcases hv : kv.2 with _ | j
        · simp [applyQueryEntry, hv, hk, definedValue]
        · rcases j with _ | b | n | sj | elems | fields <;>
            simp [applyQueryEntry, hv, hk, definedValue, hk ▸ lookup_setParam_self ps kv.1]
      · rcases hv : kv.2 with _ | j
        · simp [applyQueryEntry, hv, hk, definedValue]
        · rcases j with _ | b | n | sj | elems | fields <;>
            simp [applyQueryEntry, hv, hk, definedValue,
              lookup_setParam_other ps kv.1 _ k (fun h => hk h.symm)]
    · simp [lastDefinedValue, hr]

/-- The query fold never produces duplicate keys. -/
theorem foldl_applyQueryEntry_nodup :
    ∀ (query : List (String × Option Json)) (ps : List (String × String)),
      (ps.map Prod.fst).Nodup →
      ((query.foldl applyQueryEntry ps).map Prod.fst).Nodup := by
  intro query
  induction query with
  | nil => intro ps h; simpa
  | cons kv rest ih =>
    intro ps h
    rw [List.foldl_cons]
    apply ih
    rcases hv : kv.2 with _ | j
    · simpa [applyQueryEntry, hv] using h
    · rcases j with _ | b | n | sj | elems | fields
      · simpa [applyQueryEntry, hv] using h
      all_goals
        simp only [applyQueryEntry, hv]
        exact nodup_setParam ps kv.1 _ h

/-- **C3**: for every accepted `(baseUrl, apiPrefix, path, query)`, the
resolved URL's path component is exactly `normalize(apiPrefix) ++
normalize(path)` (leading slashes normalized on both); every defined query
entry appears stringified verbatim under last-write-wins (the last defined
value for a key is what a lookup returns, `undefined`/`null` entries are
omitted), keys are never duplicated (not multi-value); and when the
normalized prefix has no trailing slash and the path does not itself begin
with a double slash, exactly one slash separates the two segments. -/
theorem buildUrl_path_and_query (a : UrlArgs)
    (h1 : a.path ≠ "") (h2 : isProbablyAbsoluteUrl a.path = false) :
    ∃ u, buildUrl a = .ok u
      ∧ u.pathPart = normalizeSeg a.apiPrefix ++ normalizeSeg a.path
      ∧ (∀ k, u.params.lookup k = lastDefinedValue a.query k)
      ∧ (u.params.map Prod.fst).Nodup
      ∧ ((normalizeSeg a.apiPrefix).data.getLast? ≠ some '/' →
          a.path.data.take 2 ≠ ['/', '/'] →
          ∃ rest, u.pathPart.data
              = (normalizeSeg a.apiPrefix).data ++ '/' :: rest
            ∧ rest.head? ≠ some '/'
            ∧ (normalizeSeg a.apiPrefix).data.getLast? ≠ some '/') := by
  refine ⟨⟨normalizeSeg a.apiPrefix ++ normalizeSeg a.path,
      a.query.foldl applyQueryEntry []⟩, ?_, rfl, fun k => ?_, ?_,
      fun hpre hpath => ?_⟩
  · unfold buildUrl normalizeSeg
    rw [if_neg h1, if_neg (by simp [h2])]
  · rw [foldl_applyQueryEntry_lookup]
    rcases lastDefinedValue a.query k <;> simp [List.lookup]
  · exact foldl_applyQueryEntry_nodup a.query [] (by simp)
  · have hdata : (normalizeSeg a.apiPrefix ++ normalizeSeg a.path).data
        = (normalizeSeg a.apiPrefix).data ++ (normalizeSeg a.path).data := rfl
    by_cases hs : strStartsWith a.path "/" = true
    · have hpref : ['/'] <+: a.path.data := by
        have := hs
        unfold strStartsWith at this
        exact List.isPrefixOf_iff_prefix.mp (by simpa using this)
      obtain ⟨t, ht⟩ := hpref
      have hpd : a.path.data = '/' :: t := by simpa using ht.symm
      refine ⟨t, ?_, ?_, hpre⟩
      · rw [hdata]
        unfold normalizeSeg
        rw [if_pos hs, hpd]
      · intro hh
        rcases t with _ | ⟨c, t2⟩
        · simp at hh
        · simp only [List.head?_cons, Option.some.injEq] at hh
          apply hpath
          rw [hpd, hh]
          rfl
    · refine ⟨a.path.data, ?_, ?_, hpre⟩
      · rw [hdata]
        unfold normalizeSeg
        rw [if_neg hs]
        rfl
      · intro hh
        rcases hpd : a.path.data with _ | ⟨c, t⟩
        · rw [hpd] at hh
          simp at hh
        · rw [hpd] at hh
          simp only [List.head?_cons, Option.some.injEq] at hh
          apply hs
          unfold strStartsWith
          rw [hpd, hh]
          simp [List.isPrefixOf]

/-- Witness for C3: prefix without leading slash, path without leading
slash, a duplicate key, an `undefined` and a `null` entry. -/
theorem buildUrl_path_and_query_witness :
    ∃ u, buildUrl ⟨"http://z.example", "api.php/v1", "bugs",
        [("limit", some (.num 20)), ("skip", none), ("x", some .null),
          ("limit", some (.num 50))]⟩ = .ok u
      ∧ u.pathPart = normalizeSeg "api.php/v1" ++ normalizeSeg "bugs"
      ∧ (∀ k, u.params.lookup k = lastDefinedValue
          [("limit", some (.num 20)), ("skip", none), ("x", some .null),
            ("limit", some (.num 50))] k)
      ∧ (u.params.map Prod.fst).Nodup
      ∧ ((normalizeSeg "api.php/v1").data.getLast? ≠ some '/' →
          ("bugs" : String).data.take 2 ≠ ['/', '/'] →
          ∃ rest, u.pathPart.data
              = (normalizeSeg "api.php/v1").data ++ '/' :: rest
            ∧ rest.head? ≠ some '/'
            ∧ (normalizeSeg "api.php/v1").data.getLast? ≠ some '/') :=
  buildUrl_path_and_query
    ⟨"http://z.example", "api.php/v1", "bugs",
      [("limit", some (.num 20)), ("skip", none), ("x", some .null),
        ("limit", some (.num 50))]⟩
    (by decide) (by decide)

/-! ## C1 — batch accounting -/

/-- Counting invariants of the sequential resolve loop: at most one outcome
per candidate; exactly one each when not stopping on error; at most one
recorded failure when stopping on error. -/
theorem batchLoop_counts (env : Env) (rs ss cs rp : String) (stop : Bool) :
    ∀ (l : List Json) (st : TokenState),
      ((batchLoop env rs ss cs rp stop st l).2.2.1.length
          + (batchLoop env rs ss cs rp stop st l).2.2.2.length ≤ l.length)
      ∧ (stop = false →
          (batchLoop env rs ss cs rp stop st l).2.2.1.length
            + (batchLoop env rs ss cs rp stop st l).2.2.2.length = l.length)
      ∧ (stop = true →
          (batchLoop env rs ss cs rp stop st l).2.2.2.length ≤ 1) := by
  intro l
  induction l with
  | nil =>
    intro st
    simp [batchLoop]
  | cons bug rest ih =>
    intro st
    rcases hid : getBugId bug with _ | bid
    · cases stop with
      | true => simp [batchLoop, hid]
      | false =>
        rcases hrec : batchLoop env rs ss cs rp false st rest
          with ⟨st2, ev2, oks, errs⟩
        have iha := ih st
        rw [hrec] at iha
        try dsimp only at iha
        simp only [batchLoop, hid, hrec]
        simp only [Bool.false_eq_true, if_false]
        try dsimp only
        simp only [List.length_cons]
        have h1 := iha.1
        have h2 := iha.2.1 rfl
        refine ⟨by omega, fun hs => by omega, fun hs => by simp at hs⟩
    · rcases hres : resolveBug env st bid rs ss cs rp with ⟨res, st1, ev1⟩
      rcases res with e | r
      · cases stop with
        | true => simp [batchLoop, hid, hres]
        | false =>
          rcases hrec : batchLoop env rs ss cs rp false st1 rest
            with ⟨st2, ev2, oks, errs⟩
          have iha := ih st1
          rw [hrec] at iha
          try dsimp only at iha
          simp only [batchLoop, hid, hres, hrec]
          simp only [Bool.false_eq_true, if_false]
          try dsimp only
          simp only [List.length_cons]
          have h1 := iha.1
          have h2 := iha.2.1 rfl
          refine ⟨by omega, fun hs => by omega, fun hs => by simp at hs⟩
      · rcases hrec : batchLoop env rs ss cs rp stop st1 rest
          with ⟨st2, ev2, oks, errs⟩
        have iha := ih st1
        rw [hrec] at iha
        try dsimp only at iha
        simp only [batchLoop, hid, hres, hrec]
        try dsimp only
        simp only [List.length_cons]
        refine ⟨?_, fun hs => ?_, fun hs => ?_⟩
        · have := iha.1
          omega
        · have := iha.2.1 hs
          omega
        · have := iha.2.2 hs
          omega

/-- `getMyBugs` reports `matched` as the length of the filtered list it
returns. -/
theorem getMyBugs_matched (env : Env) (st : TokenState) (a : MyBugsArgs)
    (r : MyBugsOut) (st' : TokenState) (ev : List NetEvent)
    (h : getMyBugs env st a = (.ok r, st', ev)) :
    r.matched = r.bugs.length := by
  unfold getMyBugs at h
  dsimp only at h
  split at h
  · simp only [Prod.mk.injEq, Except.ok.injEq] at h
    obtain ⟨h1, -, -⟩ := h
    subst h1
    rfl
  · split at h
    · split at h
      · split at h
        · simp only [Prod.mk.injEq, Except.ok.injEq] at h
          obtain ⟨h1, -, -⟩ := h
          subst h1
          rfl
        · simp at h
      · simp at h
    · simp at h

/-- **C1 counterexample**: for the batch of five matching candidates where
the third resolve fails under `stopOnError=true`, the code reports
`attempted=5` (the truncated candidate count), `resolved=2`, `failed=1` —
so `attempted = resolved + failed` fails and the scenario's `attempted=3`
does not hold — while the remaining two candidates are indeed untouched
(no request is dispatched for bugs 4 and 5). -/
theorem batch_stop_scenario_counterexample :
    (batchResolveMyBugs demoEnv demoSt demoBatchArgs).1
        = .ok ⟨5, 5, 2, 1, [⟨1, 200⟩, ⟨2, 200⟩],
            [⟨some 3, "Request failed 500: boom"⟩]⟩
    ∧ (batchResolveMyBugs demoEnv demoSt demoBatchArgs).2.2
        = [.request "/bugs" "GET", .request "/bugs/1/resolve" "POST",
            .request "/bugs/2/resolve" "POST", .request "/bugs/3/resolve" "POST"]
    ∧ ¬ (match (batchResolveMyBugs demoEnv demoSt demoBatchArgs).1 with
          | .ok o => o.attempted = o.resolved + o.failed
          | .error _ => True) := by
  refine ⟨rfl, rfl, ?_⟩
  have h : (batchResolveMyBugs demoEnv demoSt demoBatchArgs).1
      = .ok ⟨5, 5, 2, 1, [⟨1, 200⟩, ⟨2, 200⟩],
          [⟨some 3, "Request failed 500: boom"⟩]⟩ := rfl
  rw [h]
  decide

/-- **C1 amended**: the outcome always satisfies
`resolved + failed ≤ attempted` and `attempted ≤ requested`;
`attempted ≤ maxItems` for `maxItems` within its declared 1–500 bounds;
`attempted = resolved + failed` holds whenever `stopOnError=false`; with
`stopOnError=true` at most one failure is recorded (the loop halts there,
leaving later candidates untouched). -/
theorem batch_accounting_amended (env : Env) (st : TokenState) (a : BatchArgs)
    (o : BatchOutcome) (st' : TokenState) (ev : List NetEvent)
    (h : batchResolveMyBugs env st a = (.ok o, st', ev)) :
    o.resolved + o.failed ≤ o.attempted
    ∧ o.attempted ≤ o.requested
    ∧ (1 ≤ a.maxItems → a.maxItems ≤ 500 → (o.attempted : Int) ≤ a.maxItems)
    ∧ (a.stopOnError = false → o.attempted = o.resolved + o.failed)
    ∧ (a.stopOnError = true → o.failed ≤ 1) := by
  unfold batchResolveMyBugs at h
  dsimp only at h
  rcases hg : getMyBugs env st
      ⟨a.status, a.keyword, a.limit, a.page, a.productId, a.listPath,
        a.assignedTo⟩ with ⟨res, st1, ev1⟩
  rw [hg] at h
  rcases res with e | listResult
  · simp at h
  · dsimp only at h
    rcases hb : batchLoop env a.resolution a.solution a.comment a.resolvePath
        a.stopOnError st1
        (listResult.bugs.take
          (max 1 (min (if a.maxItems = 0 then 50 else a.maxItems) 500)).toNat)
      with ⟨st2, ev2, oks, errs⟩
    rw [hb] at h
    simp only [Prod.mk.injEq, Except.ok.injEq] at h
    obtain ⟨h1, -, -⟩ := h
    subst h1
    have hcounts := batchLoop_counts env a.resolution a.solution a.comment
      a.resolvePath a.stopOnError
      (listResult.bugs.take
        (max 1 (min (if a.maxItems = 0 then 50 else a.maxItems) 500)).toNat)
      st1
    rw [hb] at hcounts
    simp only at hcounts
    have hmatch := getMyBugs_matched env st
      ⟨a.status, a.keyword, a.limit, a.page, a.productId, a.listPath,
        a.assignedTo⟩ listResult st1 ev1 hg
    refine ⟨hcounts.1, ?_, fun hlo hhi => ?_, fun hs => (hcounts.2.1 hs).symm,
      hcounts.2.2⟩
    · show (listResult.bugs.take _).length ≤ listResult.matched
      rw [hmatch, List.length_take]
      exact min_le_right _ _
    · show ((listResult.bugs.take
          (max 1 (min (if a.maxItems = 0 then 50 else a.maxItems) 500)).toNat).length
            : Int) ≤ a.maxItems
      have hne : ¬ a.maxItems = 0 := by omega
      rw [if_neg hne]
      have hmax : max 1 (min a.maxItems 500) = a.maxItems := by omega
      rw [hmax]
      have hlen : (listResult.bugs.take a.maxItems.toNat).length
          ≤ a.maxItems.toNat := by
        rw [List.length_take]
        exact min_le_left _ _
      omega

/-- Witness for C1's amended theorem: the same five-candidate batch run
with `stopOnError=false` resolves 4, fails 1, attempts all 5. -/
theorem batch_accounting_amended_witness :
    demoOutcomeNoStop.resolved + demoOutcomeNoStop.failed
        ≤ demoOutcomeNoStop.attempted
    ∧ demoOutcomeNoStop.attempted ≤ demoOutcomeNoStop.requested
    ∧ (1 ≤ demoBatchArgsNoStop.maxItems → demoBatchArgsNoStop.maxItems ≤ 500 →
        (demoOutcomeNoStop.attempted : Int) ≤ demoBatchArgsNoStop.maxItems)
    ∧ (demoBatchArgsNoStop.stopOnError = false →
        demoOutcomeNoStop.attempted
          = demoOutcomeNoStop.resolved + demoOutcomeNoStop.failed)
    ∧ (demoBatchArgsNoStop.stopOnError = true → demoOutcomeNoStop.failed ≤ 1) :=
  batch_accounting_amended demoEnv demoSt demoBatchArgsNoStop
    demoOutcomeNoStop demoSt demoEventsNoStop rfl

end Zentao
